import Mathlib

/-!
Verification development for the TechCode single-page client.

The TypeScript sources are shallowly embedded here at the level the claims
need. JavaScript strings are modelled as `List Char`; every operation on
them (trimming, regex-based fence removal, substring search) is translated
from the concrete expressions in `src/services/geminiService.ts` and
`src/App.tsx`. Asynchronous service calls are modelled by passing the
outcome of the underlying call (`Except`, `Option`) as an explicit input,
and the React component state of `App.tsx` is modelled as an explicit state
record with one transition per UI event or promise continuation.

The Version History Store described in the specification (sections 3, 4.2)
has no implementation under `src/`; following the rules for repository code
missing from `src/`, it is modelled from the specification text and every
definition doing so carries a doc comment saying so.
-/

namespace TechCode

/-- Whitespace predicate used to model the JavaScript `String.prototype.trim`
on the character sets that actually occur in this code base (ASCII space,
newline, tab, carriage return, form feed, vertical tab). -/
def isJsWS (c : Char) : Bool :=
  c == ' ' || c == '\n' || c == '\t' || c == '\r' || c == '\x0b' || c == '\x0c'

/-- Model of `s.trim()`: remove leading and trailing whitespace. The
from-the-left pass uses `List.dropWhile`, the from-the-right pass uses
`List.rdropWhile`; the two passes commute, so this is the JS semantics. -/
def trimChars (l : List Char) : List Char :=
  List.rdropWhile isJsWS (l.dropWhile isJsWS)

/-- The opening fence recognised by the regex `/^```html\n?/` in
`geminiService.ts`. -/
def fenceOpenChars : List Char := "```html".data

/-- The closing fence recognised by the regex `/\n?```$/` in
`geminiService.ts`. -/
def fenceCloseChars : List Char := "```".data

/-- One-character newline list, used when the optional `\n` of the fence
regexes is consumed. -/
def newlineChars : List Char := "\n".data

/-- Model of `s.replace(/^```html\n?/, '')`: if the string starts with the
literal ```` ```html ````, remove it together with one following newline
when present; otherwise leave the string unchanged. -/
def removeLeadFence (s : List Char) : List Char :=
  if fenceOpenChars.isPrefixOf s then
    let r := s.drop fenceOpenChars.length
    if newlineChars.isPrefixOf r then r.drop 1 else r
  else s

/-- Model of `s.replace(/\n?```$/, '')`: if the string ends with the literal
```` ``` ````, remove it together with one preceding newline when present;
otherwise leave the string unchanged. -/
def removeTrailFence (s : List Char) : List Char :=
  if fenceCloseChars.isSuffixOf s then
    let r := s.rdrop fenceCloseChars.length
    if newlineChars.isSuffixOf r then r.rdrop 1 else r
  else s

/-- The fence-stripping pipeline applied by `generateWebsiteCodeStream`,
`autoFixCode` and `fastEditResponse` in `geminiService.ts`:
`text.replace(/^```html\n?/, '').replace(/\n?```$/, '').trim()`. -/
def cleanCode (s : List Char) : List Char :=
  trimChars (removeTrailFence (removeLeadFence s))

/-- Model of the JavaScript `hay.includes(needle)` substring test used by
`handleApiError`. -/
def hasSubstring : List Char → List Char → Bool
  | [], needle => needle.isEmpty
  | c :: t, needle => needle.isPrefixOf (c :: t) || hasSubstring t needle

/-- Message returned by `handleApiError` for errors whose text contains
the token 429. -/
def rateLimitMsg : List Char := "Rate limit reached. Please wait a moment.".data

/-- Message returned by `handleApiError` for errors whose text contains
the token 403. -/
def authConfigMsg : List Char := "API Key error. Check configuration.".data

/-- Message returned by `handleApiError` for errors whose text contains
the token SAFETY. -/
def safetyMsg : List Char := "Prompt blocked by safety filters.".data

/-- Fallback message returned by `handleApiError` for every other error. -/
def synthesisErrorMsg : List Char := "Synthesis error. Please refine your prompt.".data

/-- Token 429 searched for by `handleApiError`. -/
def tok429 : List Char := "429".data

/-- Token 403 searched for by `handleApiError`. -/
def tok403 : List Char := "403".data

/-- Token SAFETY searched for by `handleApiError`. -/
def tokSafety : List Char := "SAFETY".data

/-- Model of `handleApiError` from `geminiService.ts`. The input is the
error message text (`error?.message || String(error)` in the source). -/
def handleApiError (message : List Char) : List Char :=
  if hasSubstring message tok429 then rateLimitMsg
  else if hasSubstring message tok403 then authConfigMsg
  else if hasSubstring message tokSafety then safetyMsg
  else synthesisErrorMsg

/-- Model of the cumulative streaming loop of `generateWebsiteCodeStream`:
`fullText += chunk.text; onChunk(clean(fullText))`, and the cleaned full
text is returned at the end. The first component is the list of strings
handed to `onChunk` in order; the second is the returned final text. -/
def streamRun : List (List Char) → List Char → (List (List Char) × List Char)
  | [], acc => ([], cleanCode acc)
  | c :: cs, acc =>
    let acc2 := acc ++ c
    let r := streamRun cs acc2
    (cleanCode acc2 :: r.1, r.2)

/-- The cumulative raw texts after each chunk, starting from accumulator
`acc`. This is the phrase of the specification (the raw text so far after
every chunk), used to compare the emissions of `streamRun` against. -/
def cumulativeRaw : List (List Char) → List Char → List (List Char)
  | [], _ => []
  | c :: cs, acc => (acc ++ c) :: cumulativeRaw cs (acc ++ c)

/-- Result record of `estimateGenerationTime`. -/
structure EstimateResult where
  seconds : Int
  complexity : List Char
deriving DecidableEq

/-- Complexity label Medium. -/
def mediumLabel : List Char := "Medium".data

/-- Observable outcomes of the service call inside `estimateGenerationTime`:
the call itself may throw (`failure`); the response text may be empty, in
which case the source parses the fallback literal with seconds 30
(`emptyText`); `JSON.parse` may throw on malformed text (`malformed`,
caught by the surrounding try); or a JSON object with a seconds number and
a complexity string is obtained (`parsed`). -/
inductive EstOutcome where
  | failure
  | emptyText
  | malformed
  | parsed (seconds : Int) (complexity : List Char)

/-- Model of `estimateGenerationTime` from `geminiService.ts`. Every branch
of the source ends in a plain return, so the model is a total function: the
catch-all `try` turns both a service failure and a `JSON.parse` exception
into the default `{seconds: 45, complexity: Medium}`, and a successful
parse is clamped with `Math.max(15, Math.min(seconds, 120))`. -/
def estimateGenerationTime : EstOutcome → EstimateResult
  | .failure => { seconds := 45, complexity := mediumLabel }
  | .malformed => { seconds := 45, complexity := mediumLabel }
  | .emptyText => { seconds := max 15 (min 30 120), complexity := mediumLabel }
  | .parsed n c => { seconds := max 15 (min n 120), complexity := c }

/-- Citation source pair surfaced through the `onSources` side channel
(`types.ts`). -/
structure GroundingSource where
  title : List Char
  uri : List Char
deriving DecidableEq

/-- One raw grounding chunk of the search response
(`candidates[0].groundingMetadata.groundingChunks[i].web`). -/
structure RawGroundingChunk where
  webTitle : Option (List Char)
  webUri : Option (List Char)

/-- The search response used by the optional grounding pass: its text and
the optional grounding chunk list. -/
structure SearchResp where
  text : List Char
  groundingChunks : Option (List RawGroundingChunk)

/-- Default title substituted by the source when a chunk has none. -/
def defaultSourceTitle : List Char := "Source".data

/-- The mapping and filtering applied to grounding chunks before invoking
`onSources`: `{title: web.title || "Source", uri: web.uri || ""}` filtered
to non-empty uris. -/
def toGroundingSources (cs : List RawGroundingChunk) : List GroundingSource :=
  (cs.map fun c => { title := c.webTitle.getD defaultSourceTitle, uri := c.webUri.getD [] }).filter
    fun s => !s.uri.isEmpty

/-- Outcome of the main generation stream: the chunk texts delivered before
the loop ends, and the underlying error message if the stream then threw. -/
structure StreamOutcome where
  chunksDelivered : List (List Char)
  failed : Option (List Char)

/-- Inputs of one `generateWebsiteCodeStream` call: the prompt, the
`useSearch` flag, the outcome of the optional search call, and the outcome
of the main stream. -/
structure GenInput where
  prompt : List Char
  useSearch : Bool
  searchResult : Except (List Char) SearchResp
  stream : StreamOutcome

/-- Observable outputs of one `generateWebsiteCodeStream` call: the text of
the request sent to the generation model, the strings handed to `onChunk`,
the list handed to `onSources` (`none` when the callback was not invoked),
and the final result (`error` carries the message of the thrown
`Error(handleApiError(e))`). -/
structure GenOutput where
  requestText : List Char
  emitted : List (List Char)
  sourcesEmitted : Option (List GroundingSource)
  result : Except (List Char) (List Char)

/-- Prefix of the research context: `Research Data: `. -/
def researchLabel : List Char := "Research Data: ".data

/-- The two newlines appended after the research context. -/
def twoNewlines : List Char := "\n\n".data

/-- The system instruction of `geminiService.ts` (the full prompt text is
long inert prompt data; no claim depends on its wording, only on where
it is placed in the request, so a representative excerpt stands in for
it). -/
def systemInstructionText : List Char :=
  "Task: Create a COMPLETE, high-performance, professional, FULL-STACK single-file web application prototype.".data

/-- The `\n\nBuild: ` marker placed before the prompt in the request. -/
def buildLabel : List Char := "\n\nBuild: ".data

/-- Model of `generateWebsiteCodeStream` from `geminiService.ts`. When
`useSearch` is set, the search pass runs first inside its own try/catch: on
success the context becomes `Research Data: <text>\n\n` and, when grounding
chunks are present, `onSources` receives the mapped and filtered list; on
failure the catch only logs a warning, the context stays empty and
`onSources` is never invoked. The request is
`context + SYSTEM_INSTRUCTION + "\n\nBuild: " + prompt`, the stream loop is
`streamRun`, and a stream failure is rethrown as
`Error(handleApiError(e))`. -/
def generateWebsiteCodeStream (inp : GenInput) : GenOutput :=
  let searchPass : List Char × Option (List GroundingSource) :=
    if inp.useSearch then
      match inp.searchResult with
      | .ok r => (researchLabel ++ r.text ++ twoNewlines, r.groundingChunks.map toGroundingSources)
      | .error _ => ([], none)
    else ([], none)
  let requestText := searchPass.1 ++ systemInstructionText ++ buildLabel ++ inp.prompt
  let run := streamRun inp.stream.chunksDelivered []
  match inp.stream.failed with
  | some m =>
    { requestText := requestText, emitted := run.1, sourcesEmitted := searchPass.2,
      result := .error (handleApiError m) }
  | none =>
    { requestText := requestText, emitted := run.1, sourcesEmitted := searchPass.2,
      result := .ok run.2 }

/-- Model of `fastEditResponse` from `geminiService.ts`: the service result
is `response.text` (possibly absent, defaulted to the empty string) cleaned
by the fence pipeline; a thrown error is remapped through
`handleApiError`. -/
def fastEditResponse (svc : Except (List Char) (Option (List Char))) :
    Except (List Char) (List Char) :=
  match svc with
  | .ok t => .ok (cleanCode (t.getD []))
  | .error e => .error (handleApiError e)

/-- Model of `autoFixCode` from `geminiService.ts`: like `fastEditResponse`
but an absent `response.text` is defaulted to the input code. -/
def autoFixCode (code : List Char) (svc : Except (List Char) (Option (List Char))) :
    Except (List Char) (List Char) :=
  match svc with
  | .ok t => .ok (cleanCode (t.getD code))
  | .error e => .error (handleApiError e)

/-- Modelled from the spec: one History entry, `{code, timestamp}`
optionally paired with the user instruction that produced it (section 3 of
the specification; the Version History Store has no implementation under
`src/`). -/
structure HistoryEntry where
  code : List Char
  timestamp : Nat
  instruction : Option (List Char)
deriving DecidableEq

/-- Modelled from the spec: the History, an ordered sequence of entries
plus a movable cursor `index`; `index = -1` encodes the empty store. -/
structure HistoryState where
  entries : List HistoryEntry
  index : Int
deriving DecidableEq

/-- Modelled from the spec: `commit(code, instruction?)` truncates the tail
past the cursor, appends a new entry, and moves the cursor to the new tail
index (section 4.2). -/
def commitOp (h : HistoryState) (code : List Char) (instruction : Option (List Char))
    (now : Nat) : HistoryState :=
  let kept := h.entries.take (h.index + 1).toNat
  let entries := kept ++ [{ code := code, timestamp := now, instruction := instruction }]
  { entries := entries, index := (entries.length : Int) - 1 }

/-- Modelled from the spec: `undo()` moves the cursor one step back when
`index > 0` and is a no-op otherwise. -/
def undoOp (h : HistoryState) : HistoryState :=
  if 0 < h.index then { entries := h.entries, index := h.index - 1 } else h

/-- Modelled from the spec: `redo()` moves the cursor one step forward when
`index < length - 1` and is a no-op otherwise. -/
def redoOp (h : HistoryState) : HistoryState :=
  if h.index < (h.entries.length : Int) - 1 then
    { entries := h.entries, index := h.index + 1 }
  else h

/-- Modelled from the spec: `current()` is the code of the entry under the
cursor, or the empty string when the store is empty. -/
def currentCode (h : HistoryState) : List Char :=
  match h.entries.get? h.index.toNat with
  | some e => e.code
  | none => []

/-- The two views of `App.tsx`: the landing page and the editor. -/
inductive AppView where
  | home
  | editor
deriving DecidableEq

/-- The displayed artifact (`currentSite` in `App.tsx`). The `id` and
`timestamp` metadata fields of the source carry no behaviour that any
claim mentions and are omitted; `prompt` and `code` are kept. -/
structure SiteArtifact where
  prompt : List Char
  code : List Char
deriving DecidableEq

/-- The component state of `App.tsx` relevant to the session claims:
the view, the displayed artifact, the three in-flight flags
(`state.isLoading`, `isEditing`, `isFixing`), the two error slots
(`state.error`, `editError`), and the History. The History field is
modelled from the spec (there is no History implementation under `src/`);
per section 4.3 of the specification a successful generate, edit, or fix
commits its final text, and no other transition touches the History. -/
structure SessionState where
  view : AppView
  currentSite : Option SiteArtifact
  isLoading : Bool
  isEditing : Bool
  isFixing : Bool
  error : Option (List Char)
  editError : Option (List Char)
  history : HistoryState
deriving DecidableEq

/-- The prompt of the displayed artifact (the `prompt` state variable
captured by the streaming callback equals it while a generation is in
flight). -/
def promptOf (s : SessionState) : List Char :=
  (s.currentSite.map fun site => site.prompt).getD []

/-- The code of the displayed artifact, or the empty string when there is
none. -/
def codeOf (s : SessionState) : List Char :=
  (s.currentSite.map fun site => site.code).getD []

/-- UI events and promise continuations of `App.tsx`. `startGenerate`,
`startEdit` and `startFix` are button clicks carrying the text boxes read
by the handler; the Success and Failure events are the continuations of the
corresponding awaited service call, a Failure carrying the underlying
service error message (the handler stores `err.message`, which the service
produced as `handleApiError` of that underlying message). The last three
events are modelled from the spec: `undoReq`, `redoReq` and `restoreReq`
are the undo, redo and restore-from-timeline requests of section 4.3,
which have no implementation under `src/`. -/
inductive SessionEvent where
  | startGenerate (prompt : List Char)
  | genChunk (chunk : List Char)
  | genSuccess (now : Nat)
  | genFailure (message : List Char)
  | startEdit (instruction : List Char)
  | editSuccess (newCode : List Char) (instruction : List Char) (now : Nat)
  | editFailure (message : List Char)
  | startFix
  | fixSuccess (newCode : List Char) (now : Nat)
  | fixFailure (message : List Char)
  | undoReq
  | redoReq
  | restoreReq (code : List Char) (now : Nat)

/-- One step of the `App.tsx` session, translated handler by handler.
`startGenerate` is guarded by `prompt.trim()` being non-empty and by the
generate button existing only on the home view. `startEdit` is guarded by
the handler checks (`editPrompt.trim()` non-empty, `currentSite` present),
by the submit button being disabled while `isEditing`, and by the
full-screen loading overlay that blocks every editor control while
`isLoading`; the source has no check against `isFixing`. `startFix` is
guarded by the handler checks (`currentSite` present, not `isFixing`), the
button disable while `isFixing`, the editor view, and the same overlay; the
source has no check against `isEditing`. Failure continuations store the
mapped message (`genFailure` also clears the artifact and returns to the
home view); success continuations store the new code and, modelled from the
spec, commit it to the History. The `undoReq`, `redoReq` and `restoreReq`
arms are modelled from the spec (section 4.3): they are instantaneous while
the session is idle, they rehydrate the displayed artifact from the moved
cursor (restore commits the chosen code as a new tip), and they are
rejected as no-ops while Generating, Editing or Fixing is active. -/
def sessionStep (ev : SessionEvent) (s : SessionState) : SessionState :=
  match ev with
  | .startGenerate p =>
    if s.view = AppView.home ∧ trimChars p ≠ [] then
      { s with view := AppView.editor, isLoading := true, error := none,
               currentSite := some { prompt := p, code := [] } }
    else s
  | .genChunk c =>
    { s with currentSite := some { prompt := promptOf s, code := c } }
  | .genSuccess now =>
    { s with isLoading := false,
             history := commitOp s.history (codeOf s) none now }
  | .genFailure m =>
    { s with isLoading := false, error := some (handleApiError m),
             currentSite := none, view := AppView.home }
  | .startEdit instr =>
    if s.view = AppView.editor ∧ s.isLoading = false ∧ s.isEditing = false
        ∧ trimChars instr ≠ [] ∧ s.currentSite ≠ none then
      { s with isEditing := true, editError := none }
    else s
  | .editSuccess newCode instr now =>
    { s with currentSite := s.currentSite.map fun site => { site with code := newCode },
             isEditing := false,
             history := commitOp s.history newCode (some instr) now }
  | .editFailure m =>
    { s with editError := some (handleApiError m), isEditing := false }
  | .startFix =>
    if s.view = AppView.editor ∧ s.isLoading = false ∧ s.isFixing = false
        ∧ s.currentSite ≠ none then
      { s with isFixing := true }
    else s
  | .fixSuccess newCode now =>
    { s with currentSite := s.currentSite.map fun site => { site with code := newCode },
             isFixing := false,
             history := commitOp s.history newCode none now }
  | .fixFailure m =>
    { s with editError := some (handleApiError m), isFixing := false }
  | .undoReq =>
    if s.view = AppView.editor ∧ s.isLoading = false ∧ s.isEditing = false
        ∧ s.isFixing = false then
      let h2 := undoOp s.history
      { s with history := h2,
               currentSite := s.currentSite.map fun site => { site with code := currentCode h2 } }
    else s
  | .redoReq =>
    if s.view = AppView.editor ∧ s.isLoading = false ∧ s.isEditing = false
        ∧ s.isFixing = false then
      let h2 := redoOp s.history
      { s with history := h2,
               currentSite := s.currentSite.map fun site => { site with code := currentCode h2 } }
    else s
  | .restoreReq code now =>
    if s.view = AppView.editor ∧ s.isLoading = false ∧ s.isEditing = false
        ∧ s.isFixing = false then
      { s with history := commitOp s.history code none now,
               currentSite := s.currentSite.map fun site => { site with code := code } }
    else s

/-- First chunk of the claim C5 counterexample: a fully fenced document. -/
def fencedChunk : List Char := "```html\nX\n```".data

/-- Second chunk of the claim C5 counterexample. -/
def plainChunk : List Char := "Y".data

/-- Input on which the cleaning pipeline is not idempotent: the leading
whitespace defeats the leading-fence regex on the first pass, the final
trim then exposes the fence, and a second pass removes it. -/
def trickyRaw : List Char := " ```html\nX".data

/-- Plain input used to witness the amended claim C6. -/
def plainDocument : List Char := "<html>ok</html>".data

theorem dropWhile_fix_of_fix (l : List Char) (hl : List.dropWhile isJsWS l = l) :
    List.dropWhile isJsWS (List.rdropWhile isJsWS l) = List.rdropWhile isJsWS l := by
  cases hr : List.rdropWhile isJsWS l with
  | nil => rfl
  | cons a rt =>
    obtain ⟨t, ht⟩ := List.rdropWhile_prefix isJsWS l
    rw [hr] at ht
    have hpa : isJsWS a = false := by
      cases hpa : isJsWS a with
      | false => rfl
      | true =>
        exfalso
        rw [← ht, List.cons_append, List.dropWhile_cons, if_pos hpa] at hl
        have hlen := congrArg List.length hl
        have hle : (List.dropWhile isJsWS (rt ++ t)).length ≤ (rt ++ t).length :=
          (List.dropWhile_sublist isJsWS).length_le
        simp at hlen hle
        omega
    rw [List.dropWhile_cons, if_neg (by simp [hpa])]

theorem trimChars_idem (l : List Char) : trimChars (trimChars l) = trimChars l := by
  unfold trimChars
  rw [dropWhile_fix_of_fix (List.dropWhile isJsWS l) (List.dropWhile_idempotent isJsWS l),
      List.rdropWhile_idempotent]

theorem removeLeadFence_id (s : List Char) (h : fenceOpenChars.isPrefixOf s = false) :
    removeLeadFence s = s := by
  simp [removeLeadFence, h]

theorem removeTrailFence_id (s : List Char) (h : fenceCloseChars.isSuffixOf s = false) :
    removeTrailFence s = s := by
  simp [removeTrailFence, h]

theorem streamRun_spec (chunks : List (List Char)) :
    ∀ acc : List Char,
      streamRun chunks acc
        = ((cumulativeRaw chunks acc).map cleanCode, cleanCode (acc ++ chunks.flatten)) := by
  induction chunks with
  | nil => intro acc; simp [streamRun, cumulativeRaw]
  | cons c cs ih =>
    intro acc
    simp [streamRun, cumulativeRaw, ih (acc ++ c), List.append_assoc]

theorem handleApiError_mem (m : List Char) :
    handleApiError m = rateLimitMsg ∨ handleApiError m = authConfigMsg
      ∨ handleApiError m = safetyMsg ∨ handleApiError m = synthesisErrorMsg := by
  unfold handleApiError
  split_ifs <;> simp



/-- Claim C5 amended: every string handed to `onChunk` is the cumulative
raw text up to that chunk passed through the fence-stripping pipeline (the
full current artifact, never a delta), and the returned final text is the
cleaned concatenation of all chunks. The further conjunct of the claim,
that fence markers never appear in the displayed text, is refuted by the
counterexample. -/
theorem streamEmitsCumulativeCleanText (chunks : List (List Char)) :
    (streamRun chunks []).1 = (cumulativeRaw chunks []).map cleanCode
    ∧ (streamRun chunks []).2 = cleanCode chunks.flatten := by
  have h := streamRun_spec chunks []
  constructor
  · rw [h]
  · simp [h]

/-- Claim C5 counterexample: after applying the two chunks in order, the
second displayed text still contains the fence marker ```` ``` ````: the
single-pass regexes only strip one leading and one trailing fence of the
cumulative text, and the first fenced block has become interior. -/
theorem fenceMarkerSurvivesChunk :
    hasSubstring ((streamRun [fencedChunk, plainChunk] []).1.getD 1 []) fenceCloseChars
      = true := by
  decide

/-- Claim C6 counterexample: the fence-stripping pipeline is not
idempotent. -/
theorem cleanCodeNotIdempotent :
    cleanCode (cleanCode trickyRaw) ≠ cleanCode trickyRaw := by
  decide

/-- Claim C6 amended: the pipeline is idempotent exactly on the inputs
whose cleaned form does not itself start with an opening fence or end with
a closing fence; for such inputs a second application changes nothing. -/
theorem cleanCodeIdemOfNoResidualFence (s : List Char)
    (h1 : fenceOpenChars.isPrefixOf (cleanCode s) = false)
    (h2 : fenceCloseChars.isSuffixOf (cleanCode s) = false) :
    cleanCode (cleanCode s) = cleanCode s := by
  have step1 : cleanCode (cleanCode s)
      = trimChars (removeTrailFence (removeLeadFence (cleanCode s))) := rfl
  rw [step1, removeLeadFence_id _ h1, removeTrailFence_id _ h2]
  exact trimChars_idem _

/-- Witness for the amended claim C6 at a concrete input. -/
theorem cleanCodeIdemOfNoResidualFence_witness :
    fenceOpenChars.isPrefixOf (cleanCode plainDocument) = false
    ∧ fenceCloseChars.isSuffixOf (cleanCode plainDocument) = false
    ∧ cleanCode (cleanCode plainDocument) = cleanCode plainDocument :=
  ⟨by decide, by decide, cleanCodeIdemOfNoResidualFence plainDocument (by decide) (by decide)⟩

/-- Claim C8: every failure of a generation, edit or auto-fix service call
is rethrown as `handleApiError` of the underlying message, the controller
continuations store exactly that string as the single current error, and
`handleApiError` always lands in the closed four-message taxonomy. -/
theorem apiFailuresMappedToTaxonomy (m p code : List Char) (u : Bool)
    (x : Except (List Char) SearchResp) (chunks : List (List Char)) (s : SessionState) :
    (generateWebsiteCodeStream ⟨p, u, x, ⟨chunks, some m⟩⟩).result
      = Except.error (handleApiError m)
    ∧ fastEditResponse (Except.error m) = Except.error (handleApiError m)
    ∧ autoFixCode code (Except.error m) = Except.error (handleApiError m)
    ∧ (sessionStep (SessionEvent.genFailure m) s).error = some (handleApiError m)
    ∧ (sessionStep (SessionEvent.editFailure m) s).editError = some (handleApiError m)
    ∧ (sessionStep (SessionEvent.fixFailure m) s).editError = some (handleApiError m)
    ∧ (handleApiError m = rateLimitMsg ∨ handleApiError m = authConfigMsg
        ∨ handleApiError m = safetyMsg ∨ handleApiError m = synthesisErrorMsg) := by
  refine ⟨?_, rfl, rfl, rfl, rfl, rfl, handleApiError_mem m⟩
  simp [generateWebsiteCodeStream]

/-- Claim C9: `estimateGenerationTime` is a total function; a service
failure or a malformed response yields the default of 45 seconds and
Medium complexity, and every returned seconds value lies in [15, 120]. -/
theorem estimateTotalAndClamped (r : EstOutcome) :
    (15 ≤ (estimateGenerationTime r).seconds ∧ (estimateGenerationTime r).seconds ≤ 120)
    ∧ estimateGenerationTime EstOutcome.failure
      = { seconds := 45, complexity := mediumLabel }
    ∧ estimateGenerationTime EstOutcome.malformed
      = { seconds := 45, complexity := mediumLabel } := by
  refine ⟨?_, rfl, rfl⟩
  cases r with
  | failure => exact ⟨by norm_num [estimateGenerationTime], by norm_num [estimateGenerationTime]⟩
  | emptyText => exact ⟨by norm_num [estimateGenerationTime], by norm_num [estimateGenerationTime]⟩
  | malformed => exact ⟨by norm_num [estimateGenerationTime], by norm_num [estimateGenerationTime]⟩
  | parsed n c =>
    exact ⟨le_max_left 15 (min n 120), max_le (by norm_num) (min_le_right n 120)⟩

/-- Claim C10: a failed grounding/search pass never fails the generation
call: the run is identical to a run with search disabled (so the stream
proceeds with an empty research context), and the `onSources` side channel
is not invoked. -/
theorem searchFailureSwallowed (p e : List Char) (x : Except (List Char) SearchResp)
    (strm : StreamOutcome) :
    generateWebsiteCodeStream ⟨p, true, Except.error e, strm⟩
      = generateWebsiteCodeStream ⟨p, false, x, strm⟩
    ∧ (generateWebsiteCodeStream ⟨p, true, Except.error e, strm⟩).sourcesEmitted = none := by
  constructor <;> cases hf : strm.failed <;> simp [generateWebsiteCodeStream, hf]

end TechCode
